import Mathlib

/-!
Verification of the A2A protocol server (`a2a/server.py`, `a2a/models.py`).

The development shallowly embeds the server's task-lifecycle core:
the pydantic data model, the loosely-typed request payloads (as a JSON
value type with Python truthiness), the `handle_task_send` /
`handle_task_get` / `handle_task_cancel` handlers over the in-memory
`tasks` dict, and `verify_api_key`.  The external LangGraph executor is a
parameter (`execute`), the `uuid4()` calls are oracle parameters
(`freshId`, `freshSession`), and wall-clock timestamps are not modelled
(no behaviour depends on them).  Raising a Python exception is modelled
by `Except`; dynamic errors (`AttributeError`, `TypeError`, pydantic
`ValidationError` on non-string fields) are separate error constructors
from the `ValueError`s the code raises deliberately.
-/

namespace A2A

/-- A JSON-like Python value, as handled by the loosely-typed request
payloads (`params: dict`).  Objects are association lists with unique
keys (Python dicts, insertion-ordered). -/
inductive JVal where
  | jnull
  | jbool (b : Bool)
  | jnum (n : Int)
  | jstr (s : String)
  | jarr (elems : List JVal)
  | jobj (fields : List (String × JVal))

/-- Python truthiness: `None`, `False`, `0`, `""`, `[]` and the empty
dict are falsy; everything else is truthy. -/
def JVal.truthy : JVal → Bool
  | .jnull => false
  | .jbool b => b
  | .jnum n => n != 0
  | .jstr s => s != ""
  | .jarr xs => !xs.isEmpty
  | .jobj fs => !fs.isEmpty

/-- `d.get(k, default)` on a Python dict. -/
def objGetD (fields : List (String × JVal)) (k : String) (d : JVal) : JVal :=
  match fields.find? (fun p => p.1 == k) with
  | some p => p.2
  | none => d

/-- `k in d` on a Python dict. -/
def objHas (fields : List (String × JVal)) (k : String) : Bool :=
  (fields.find? (fun p => p.1 == k)).isSome

/-- Python `a or b`: `a` if truthy, else `b`. -/
def pyOr (a b : JVal) : JVal := if a.truthy then a else b

/-- `x == "text"` in Python: true exactly on the string `"text"`. -/
def JVal.isTextTag : JVal → Bool
  | .jstr s => s == "text"
  | _ => false

/-- The errors `handle_task_send` / `handle_task_get` /
`handle_task_cancel` can raise.  `noContent` and `taskNotFound` are the
`ValueError`s the code raises deliberately; the other constructors are
the dynamic errors Python raises on ill-shaped payloads
(`AttributeError` from calling `.get` on a non-dict, `TypeError` from
iterating a non-iterable, pydantic `ValidationError` from a non-string
value reaching a `str`-typed model field). -/
inductive A2AError where
  | noContent
  | taskNotFound
  | attributeError
  | typeError
  | validationError
deriving DecidableEq

/-- `models.Part`: a typed content fragment. -/
structure Part where
  type : String := "text"
  text : Option String := none
  mimeType : Option String := none
  data : Option String := none
deriving DecidableEq

/-- `models.Message`: a role plus ordered parts. -/
structure Message where
  role : String
  parts : List Part
deriving DecidableEq

/-- `models.TaskState`. -/
inductive TaskState where
  | submitted
  | working
  | inputRequired
  | completed
  | canceled
  | failed
deriving DecidableEq

/-- `models.TaskStatus`.  The wall-clock `timestamp` string is not
modelled: it is nondeterministic and no server behaviour reads it. -/
structure TaskStatus where
  state : TaskState
  message : Option Message := none
deriving DecidableEq

/-- `models.Artifact`. -/
structure Artifact where
  name : Option String := none
  description : Option String := none
  parts : List Part
  index : Int := 0
  append : Bool := false
  lastChunk : Bool := true
deriving DecidableEq

/-- `models.Task`.  `metadata` is an opaque passthrough mapping the
server never consults, so it is not modelled. -/
structure Task where
  id : String
  sessionId : Option String := none
  status : TaskStatus := { state := .submitted }
  history : List Message := []
  artifacts : List Artifact := []
deriving DecidableEq

/-- A LangChain chat message, as consumed and produced by the executor:
`HumanMessage`, `AIMessage`, or any other message class (system, tool). -/
inductive LCMessage where
  | human (content : String)
  | ai (content : String)
  | other (content : String)
deriving DecidableEq

def LCMessage.content : LCMessage → String
  | .human c => c
  | .ai c => c
  | .other c => c

/-- `isinstance(msg, AIMessage) and msg.content` (line 311). -/
def isAIWithContent : LCMessage → Bool
  | .ai c => c != ""
  | _ => false

/-- The in-memory `tasks: dict[str, Task]` store (line 35): an
insertion-ordered association list, keys unique by construction. -/
abbrev Store := List (String × Task)

/-- `tasks[id]` lookup / `id in tasks`. -/
def Store.get? (st : Store) (id : String) : Option Task :=
  match List.find? (fun p => p.1 == id) st with
  | some p => some p.2
  | none => none

/-- `tasks[id] = t`: update in place when the key exists (Python dicts
keep insertion order on update), append otherwise. -/
def Store.set (st : Store) (id : String) (t : Task) : Store :=
  if (List.find? (fun p => p.1 == id) st).isSome then
    List.map (fun p => if p.1 == id then (id, t) else p) st
  else
    st ++ [(id, t)]

def Store.keys (st : Store) : List String := List.map Prod.fst st

def Store.size (st : Store) : Nat := List.length st

/-- `for part in parts` (line 255): Python iteration over the value of
the `parts` key.  Lists iterate their elements, strings their
characters (each a one-character string), dicts their keys; `None`,
numbers and booleans raise `TypeError`. -/
def pyIter : JVal → Except A2AError (List JVal)
  | .jarr xs => .ok xs
  | .jstr s => .ok (s.data.map (fun c => .jstr (String.mk [c])))
  | .jobj fs => .ok (fs.map (fun p => .jstr p.1))
  | _ => .error .typeError

/-- The part loop of lines 255-262: scan for the first part that is a
dict with `type == "text"` or a `"text"` key (then `break` with
`part.get("text", "")`), or that is a plain string (then `break` with
it).  `user_text` starts as `""`; a run past the end leaves it so. -/
def partScan : List JVal → JVal
  | [] => .jstr ""
  | p :: rest =>
    match p with
    | .jobj fs =>
      if (objGetD fs "type" .jnull).isTextTag || objHas fs "text" then
        objGetD fs "text" (.jstr "")
      else
        partScan rest
    | .jstr s => .jstr s
    | _ => partScan rest

/-- Lines 252-265 of `handle_task_send` ("Format 1"): when the
`message` value is truthy, scan its parts (line 264 then falls back to
the message's own `text`/`content` when the scan stayed falsy); calling
`.get` on a truthy non-dict raises `AttributeError`. -/
def extractFromMessage (messageData : JVal) : Except A2AError JVal :=
  if messageData.truthy then
    match messageData with
    | .jobj mfs => do
      let parts ← pyIter (objGetD mfs "parts" (.jarr []))
      let t := partScan parts
      -- line 264: `if not user_text and isinstance(message_data, dict)`
      if t.truthy then pure t
      else pure (pyOr (objGetD mfs "text" (.jstr "")) (objGetD mfs "content" (.jstr "")))
    | _ => .error .attributeError  -- `message_data.get` on a non-dict
  else pure (.jstr "")

/-- Lines 267-280 ("Format 2" to "Format 4" and the final check):
starting from the `user_text` left by the message phase, fall through
top-level `text`/`content`/`query`, then `prompt`, then `input`, and
raise `ValueError` (`noContent`) when everything stays falsy. -/
def extractTail (params : List (String × JVal)) (t1 : JVal) : Except A2AError JVal :=
  let t2 := if t1.truthy then t1 else
    pyOr (objGetD params "text" (.jstr ""))
      (pyOr (objGetD params "content" (.jstr "")) (objGetD params "query" (.jstr "")))
  let t3 := if t2.truthy then t2 else objGetD params "prompt" (.jstr "")
  let t4 := if t3.truthy then t3 else objGetD params "input" (.jstr "")
  if t4.truthy then pure t4 else .error .noContent

/-- Lines 249-280 of `handle_task_send`: extract `user_text` from the
request payload, trying the message's parts, the message's own
`text`/`content`, top-level `text`/`content`/`query`, `prompt`, then
`input`; raise `ValueError` (`noContent`) when everything stays falsy.
Returns the final truthy `user_text`, which for ill-shaped payloads can
be a non-string `JVal`. -/
def extractUserText (params : List (String × JVal)) : Except A2AError JVal := do
  let t1 ← extractFromMessage (objGetD params "message" (.jobj []))
  extractTail params t1

/-- Line 245: `task_id = params.get("id") or str(uuid4())`, with the
`uuid4()` oracle passed in as `fresh`. -/
def taskIdVal (params : List (String × JVal)) (fresh : String) : JVal :=
  let v := objGetD params "id" .jnull
  if v.truthy then v else .jstr fresh

/-- Line 246: `session_id = params.get("sessionId") or
params.get("session_id") or str(uuid4())`. -/
def sessionIdVal (params : List (String × JVal)) (fresh : String) : JVal :=
  let v := pyOr (objGetD params "sessionId" .jnull) (objGetD params "session_id" .jnull)
  if v.truthy then v else .jstr fresh

/-- Line 290: the user `Message` appended to history. -/
def userMessage (text : String) : Message :=
  { role := "user", parts := [{ type := "text", text := some text }] }

/-- Lines 316 and 330: the agent `Message` (also used, with an
`"Error: ..."` text, as the failure status message). -/
def agentMessage (text : String) : Message :=
  { role := "agent", parts := [{ type := "text", text := some text }] }

/-- Lines 321-326: the single `"response"` artifact appended on
success. -/
def responseArtifact (text : String) : Artifact :=
  { name := some "response"
    parts := [{ type := "text", text := some text }]
    index := 0
    lastChunk := true }

/-- Lines 296-303: project the task history into the LangChain
conversation.  Every part of every message whose `text` is truthy
(present and non-empty) becomes one turn: `HumanMessage` for role
`"user"`, `AIMessage` otherwise. -/
def buildConversation (history : List Message) : List LCMessage :=
  history.flatMap (fun m =>
    m.parts.filterMap (fun p =>
      match p.text with
      | some s =>
        if s = "" then none
        else if m.role = "user" then some (.human s) else some (.ai s)
      | none => none))

/-- Lines 309-313: walk `result["messages"]` in reverse and take the
content of the first `AIMessage` with truthy content; default `""`. -/
def extractResponse (msgs : List LCMessage) : String :=
  match msgs.reverse.find? isAIWithContent with
  | some m => m.content
  | none => ""

/-- Lines 294-330, the `try`/`except` around the executor call: on
success append the agent message, set `COMPLETED` status carrying it and
append the `"response"` artifact; on any executor error set `FAILED`
status carrying an agent message embedding the error text.  Either way
the function returns normally. -/
def runExecutor (execute : List LCMessage → Except String (List LCMessage))
    (task : Task) : Task :=
  match execute (buildConversation task.history) with
  | .ok msgs =>
    let responseText := extractResponse msgs
    let agentMsg := agentMessage responseText
    { task with
      history := task.history ++ [agentMsg]
      status := { state := .completed, message := some agentMsg }
      artifacts := task.artifacts ++ [responseArtifact responseText] }
  | .error e =>
    { task with
      status := { state := .failed, message := some (agentMessage ("Error: " ++ e)) } }

/-- Lines 289-330: append the user message, set `WORKING`, then run the
executor block on the updated task. -/
def runSubmitBody (execute : List LCMessage → Except String (List LCMessage))
    (userText : String) (task : Task) : Task :=
  let task1 := { task with
    history := task.history ++ [userMessage userText]
    status := { state := .working, message := none } }
  runExecutor execute task1

/-- Lines 283-287: `task = tasks[task_id]` when present, else a fresh
`Task(id=task_id, sessionId=session_id)`. -/
def resolveTask (store : Store) (tid sid : String) : Task :=
  match store.get? tid with
  | some t => t
  | none => { id := tid, sessionId := some sid }

/-- The tail of `handle_task_send` once `user_text` is known and the
task is resolved (and, when fresh, already inserted — line 287 runs
before line 290).  A truthy non-string `user_text` hits pydantic's
`str` validation at `Part(type="text", text=user_text)` and raises,
leaving the store as it stands at that point. -/
def finishSend (execute : List LCMessage → Except String (List LCMessage))
    (userText : JVal) (tid : String) (task : Task) (store : Store) :
    Store × Except A2AError Task :=
  match userText with
  | .jstr ut =>
    let final := runSubmitBody execute ut task
    (store.set tid final, .ok final)
  | _ => (store, .error .validationError)

/-- `handle_task_send` (lines 242-332).  `freshId` and `freshSession`
stand for the two `str(uuid4())` calls; `execute` is
`agent_graph.ainvoke` restricted to its `messages` field.  Returns the
store as left behind by the call together with the normal return value
or the raised error. -/
def handle_task_send (execute : List LCMessage → Except String (List LCMessage))
    (params : JVal) (freshId freshSession : String) (store : Store) :
    Store × Except A2AError Task :=
  match params with
  | .jobj pfs =>
    let tidV := taskIdVal pfs freshId
    let sidV := sessionIdVal pfs freshSession
    match extractUserText pfs with
    | .error e => (store, .error e)
    | .ok userText =>
      match tidV with
      | .jstr tid =>
        match store.get? tid with
        | some task0 => finishSend execute userText tid task0 store
        | none =>
          match sidV with
          | .jstr sid =>
            let task0 : Task := { id := tid, sessionId := some sid }
            finishSend execute userText tid task0 (store.set tid task0)
          | _ => (store, .error .validationError)  -- Task(sessionId=non-str)
      -- a (truthy) list or dict id is unhashable: `task_id in tasks` raises
      | .jarr _ => (store, .error .typeError)
      | .jobj _ => (store, .error .typeError)
      -- a truthy bool/number id misses the string-keyed store, then
      -- pydantic rejects Task(id=non-str)
      | _ => (store, .error .validationError)
  | _ => (store, .error .attributeError)  -- params.get on a non-dict body

/-- `handle_task_get` (lines 335-342): raise `ValueError` (`taskNotFound`)
when `params.get("id")` is falsy or the id is not a key of the store;
otherwise return the stored task.  A truthy non-string hashable id
(bool, number) is never a key of the (string-keyed) store, so it also
raises `taskNotFound`; a truthy list or dict id is unhashable and
`task_id not in tasks` raises `TypeError` instead. -/
def handle_task_get (params : JVal) (store : Store) : Except A2AError Task :=
  match params with
  | .jobj pfs =>
    match objGetD pfs "id" .jnull with
    | .jstr s =>
      if s = "" then .error .taskNotFound
      else
        match store.get? s with
        | some t => .ok t
        | none => .error .taskNotFound
    | .jarr xs => if xs.isEmpty then .error .taskNotFound else .error .typeError
    | .jobj fs => if fs.isEmpty then .error .taskNotFound else .error .typeError
    | _ => .error .taskNotFound
  | _ => .error .attributeError

/-- `handle_task_cancel` (lines 345-353): same id resolution as
`handle_task_get`; on a known id, overwrite the status with a bare
`CANCELED` status — no check against the current state. -/
def handle_task_cancel (params : JVal) (store : Store) :
    Store × Except A2AError Task :=
  match params with
  | .jobj pfs =>
    match objGetD pfs "id" .jnull with
    | .jstr s =>
      if s = "" then (store, .error .taskNotFound)
      else
        match store.get? s with
        | some t =>
          let canceled := { t with status := { state := .canceled, message := none } }
          (store.set s canceled, .ok canceled)
        | none => (store, .error .taskNotFound)
    | .jarr xs =>
      if xs.isEmpty then (store, .error .taskNotFound) else (store, .error .typeError)
    | .jobj fs =>
      if fs.isEmpty then (store, .error .taskNotFound) else (store, .error .typeError)
    | _ => (store, .error .taskNotFound)
  | _ => (store, .error .attributeError)

/-- Python `s.replace(pat, rep)` on character lists: replace every
(leftmost, non-overlapping) occurrence of `pat`.  The second argument
counts characters of a just-matched occurrence still to be consumed.
An empty `pat` is never used by the server, and is a no-op here. -/
def replaceGo (pat rep : List Char) : List Char → Nat → List Char
  | [], _ => []
  | c :: rest, skip =>
    match skip with
    | Nat.succ k => replaceGo pat rep rest k
    | 0 =>
      if pat ≠ [] ∧ pat.isPrefixOf (c :: rest) then
        rep ++ replaceGo pat rep rest (pat.length - 1)
      else
        c :: replaceGo pat rep rest 0

/-- Python `s.replace(pat, rep)`. -/
def pyReplace (s pat rep : String) : String :=
  String.mk (replaceGo pat.data rep.data s.data 0)

/-- ASCII whitespace, as stripped by Python's `str.strip()`. -/
def isPySpace (c : Char) : Bool :=
  c == ' ' || c == '\t' || c == '\n' || c == '\r' || c == '\x0b' || c == '\x0c'

/-- Python `s.strip()`: drop leading and trailing whitespace. -/
def pyStrip (s : String) : String :=
  String.mk (((s.data.dropWhile isPySpace).reverse.dropWhile isPySpace).reverse)

/-- `verify_api_key` (lines 41-54): with an empty (falsy) configured
key, pass; with a FALSY header — `if not authorization:` is Python
truthiness, so a missing header and a present-but-empty header value
both count — 401 `"Missing Authorization header"`; otherwise remove
every `"Bearer "` occurrence, strip whitespace, and compare with the
key (`"Invalid API key"` on mismatch). -/
def verify_api_key (apiKey : String) (authorization : Option String) :
    Except String Bool :=
  if apiKey = "" then .ok true
  else
    match authorization with
    | none => .error "Missing Authorization header"
    | some a =>
      if a = "" then .error "Missing Authorization header"
      else
        let token := pyStrip (pyReplace a "Bearer " "")
        if token ≠ apiKey then .error "Invalid API key"
        else .ok true

/-! ## Spec-side definitions

The definitions below follow the wording of the specification (and of
the claims under scrutiny), not the source; they exist to be compared
with the source-derived definitions above. -/

/-- A value that is a string, or null, or (by the caller's convention)
stands for an absent key. -/
def isStrLike : JVal → Bool
  | .jstr _ => true
  | .jnull => true
  | _ => false

def toStr? : JVal → Option String
  | .jstr s => some s
  | _ => none

/-- "first non-empty match wins": an empty extracted string counts as
no match. -/
def nonEmptyStr : Option String → Option String
  | some s => if s = "" then none else some s
  | none => none

/-- Spec §4.1 rule 1's part condition: "the first part whose declared
type is `\"text\"` (or which carries a `text` field, or which is itself
a plain string)". -/
def matchesPart : JVal → Bool
  | .jobj fs => (objGetD fs "type" .jnull).isTextTag || objHas fs "text"
  | .jstr _ => true
  | _ => false

/-- The text supplied by a matching part. -/
def partTextVal : JVal → Option String
  | .jobj fs => toStr? (objGetD fs "text" .jnull)
  | .jstr s => some s
  | _ => none

/-- Modelled from the spec: §4.1 rule 1 — the first matching part of a
structured message's part list supplies the text. -/
def specRule1 (params : List (String × JVal)) : Option String :=
  match objGetD params "message" .jnull with
  | .jobj mfs =>
    match objGetD mfs "parts" (.jarr []) with
    | .jarr parts => nonEmptyStr ((parts.find? matchesPart).bind partTextVal)
    | _ => none
  | _ => none

/-- Modelled from the spec: §4.1 rule 2 — the message object's own
`text` or `content` fields. -/
def specRule2 (params : List (String × JVal)) : Option String :=
  match objGetD params "message" .jnull with
  | .jobj mfs =>
    nonEmptyStr (toStr? (objGetD mfs "text" .jnull)) <|>
      nonEmptyStr (toStr? (objGetD mfs "content" .jnull))
  | _ => none

/-- A top-level field, non-empty string or nothing. -/
def specTopField (params : List (String × JVal)) (k : String) : Option String :=
  nonEmptyStr (toStr? (objGetD params k .jnull))

/-- Modelled from the spec: the §4.1 Normalizer — rules 1-5 tried in
order, first non-empty match wins; `none` means `NoContentFound`. -/
def specNormalize (params : List (String × JVal)) : Option String :=
  specRule1 params <|> specRule2 params <|>
    specTopField params "text" <|> specTopField params "content" <|>
    specTopField params "query" <|> specTopField params "prompt" <|>
    specTopField params "input"

/-- A part whose `text` field (if any) is a string or null. -/
def wellShapedPart : JVal → Bool
  | .jobj fs => isStrLike (objGetD fs "text" .jnull)
  | _ => true

/-- A payload of the shape §4.1 presupposes: `message`, when truthy, is
an object whose `parts` (when present) is a list of well-shaped parts;
every consulted text-bearing field holds a string or null. -/
def wellShaped (params : List (String × JVal)) : Bool :=
  (match objGetD params "message" .jnull with
   | .jobj mfs =>
     (match objGetD mfs "parts" (.jarr []) with
      | .jarr parts => parts.all wellShapedPart
      | _ => false) &&
       isStrLike (objGetD mfs "text" .jnull) &&
       isStrLike (objGetD mfs "content" .jnull)
   | v => !v.truthy) &&
    isStrLike (objGetD params "text" .jnull) &&
    isStrLike (objGetD params "content" .jnull) &&
    isStrLike (objGetD params "query" .jnull) &&
    isStrLike (objGetD params "prompt" .jnull) &&
    isStrLike (objGetD params "input" .jnull)

/-- Correspondence between the code's running `user_text` value and the
spec-side optional extracted string: a `some s` matches exactly the
truthy string `s`, a `none` matches any falsy value. -/
def Corr (v : JVal) (o : Option String) : Prop :=
  match o with
  | some s => v = .jstr s ∧ s ≠ ""
  | none => v.truthy = false

/-- Spec-side (the claim's reading of §4.3 step 4): one role-tagged
turn per history message, taken from its first text-bearing part. -/
def claimProjection (history : List Message) : List LCMessage :=
  history.map (fun m =>
    let t := ((m.parts.find? (fun p => p.text.isSome)).bind Part.text).getD ""
    if m.role = "user" then .human t else .ai t)

/-- Spec-side: a message with exactly one part, carrying non-empty
text — the shape of every message this server itself appends with a
non-empty reply. -/
def singleTextMessage (m : Message) : Bool :=
  match m.parts with
  | [p] =>
    match p.text with
    | some s => s != ""
    | none => false
  | _ => false

/-- Spec-side (the claim's reading of §6 authentication): the header
value with an optional `"Bearer "` prefix stripped. -/
def bearerStripped (v : String) : String :=
  if "Bearer ".data.isPrefixOf v.data then String.mk (v.data.drop 7) else v

/-- Spec-side: the claim's authentication condition — header present
and its value, with an optional `"Bearer "` prefix stripped, equals the
secret. -/
def claimAuthenticated (apiKey : String) (authorization : Option String) : Bool :=
  match authorization with
  | some v => bearerStripped v == apiKey
  | none => false

/-- The amended authentication condition: the secret is unset, or the
header is present and its value with every `"Bearer "` occurrence
removed and surrounding whitespace stripped equals the secret. -/
def amendedAuthenticated (apiKey : String) (authorization : Option String) : Bool :=
  apiKey == "" ||
    match authorization with
    | some v => pyStrip (pyReplace v "Bearer " "") == apiKey
    | none => false

/-- `Except` success as a Bool. -/
def isOkB : Except ε α → Bool
  | .ok _ => true
  | .error _ => false

/-! ## Normalizer correspondence lemmas -/

theorem orElse_assoc (a b c : Option String) :
    ((a <|> b) <|> c : Option String) = (a <|> (b <|> c) : Option String) := by
  cases a <;> rfl

theorem corr_unique {v : JVal} {o o' : Option String}
    (h : Corr v o) (h' : Corr v o') : o = o' := by
  cases o with
  | some s =>
    cases o' with
    | some s' =>
      obtain ⟨rfl, _⟩ := h
      obtain ⟨he, _⟩ := h'
      cases he
      rfl
    | none =>
      obtain ⟨rfl, hs⟩ := h
      simp only [Corr, JVal.truthy] at h'
      simp [hs] at h'
  | none =>
    cases o' with
    | some s' =>
      obtain ⟨rfl, hs⟩ := h'
      simp only [Corr, JVal.truthy] at h
      simp [hs] at h
    | none => rfl

/-- The value `d.get(k, "")` the code reads corresponds to the
spec-side non-empty string at `d[k]`, whenever that slot holds a
string, null, or nothing. -/
theorem corr_getD (fs : List (String × JVal)) (k : String)
    (h : isStrLike (objGetD fs k .jnull) = true) :
    Corr (objGetD fs k (.jstr "")) (nonEmptyStr (toStr? (objGetD fs k .jnull))) := by
  unfold objGetD at *
  cases hfind : List.find? (fun p => p.1 == k) fs with
  | none =>
    simp only [hfind]
    simp [Corr, toStr?, nonEmptyStr, JVal.truthy]
  | some p =>
    simp only [hfind] at h ⊢
    cases hv : p.2 with
    | jstr s =>
      by_cases hs : s = ""
      · subst hs; simp [Corr, toStr?, nonEmptyStr, JVal.truthy]
      · simp [Corr, toStr?, nonEmptyStr, hs, JVal.truthy]
    | jnull => simp [Corr, toStr?, nonEmptyStr, JVal.truthy]
    | jbool b => rw [hv] at h; simp [isStrLike] at h
    | jnum n => rw [hv] at h; simp [isStrLike] at h
    | jarr xs => rw [hv] at h; simp [isStrLike] at h
    | jobj gs => rw [hv] at h; simp [isStrLike] at h

theorem corr_pyOr {a b : JVal} {oa ob : Option String}
    (ha : Corr a oa) (hb : Corr b ob) : Corr (pyOr a b) (oa <|> ob) := by
  cases oa with
  | some s =>
    obtain ⟨rfl, hs⟩ := ha
    simp only [pyOr, JVal.truthy]
    simp [hs, Corr]
  | none =>
    simp only [Corr] at ha
    simp only [pyOr, ha]
    simpa using hb

/-- The code's `if not user_text: user_text = ...` step. -/
theorem corr_step {t c : JVal} {o oc : Option String}
    (ht : Corr t o) (hc : Corr c oc) :
    Corr (if t.truthy then t else c) (o <|> oc) := by
  cases o with
  | some s =>
    obtain ⟨rfl, hs⟩ := ht
    simp only [JVal.truthy]
    simp [hs, Corr]
  | none =>
    simp only [Corr] at ht
    simp only [ht]
    simpa using hc

/-- The part-scan loop corresponds to spec rule 1: the text of the
first matching part, when non-empty. -/
theorem corr_partScan (parts : List JVal) (h : parts.all wellShapedPart = true) :
    Corr (partScan parts) (nonEmptyStr ((parts.find? matchesPart).bind partTextVal)) := by
  induction parts with
  | nil => simp [partScan, Corr, nonEmptyStr, JVal.truthy]
  | cons p rest ih =>
    rw [List.all_cons, Bool.and_eq_true] at h
    obtain ⟨hp, hrest⟩ := h
    cases p with
    | jobj fs =>
      by_cases hm : ((objGetD fs "type" .jnull).isTextTag || objHas fs "text") = true
      · have hscan : partScan (.jobj fs :: rest) = objGetD fs "text" (.jstr "") := by
          simp [partScan, hm]
        have hfind : List.find? matchesPart (.jobj fs :: rest) = some (.jobj fs) := by
          simp [List.find?_cons, matchesPart, hm]
        rw [hscan, hfind]
        have hptext : Option.bind (some (JVal.jobj fs)) partTextVal =
            toStr? (objGetD fs "text" .jnull) := rfl
        rw [hptext]
        exact corr_getD fs "text" (by simpa [wellShapedPart] using hp)
      · have hm0 : ((objGetD fs "type" .jnull).isTextTag || objHas fs "text") = false := by
          simpa using hm
        have hscan : partScan (.jobj fs :: rest) = partScan rest := by
          simp [partScan, hm0]
        have hfind : List.find? matchesPart (.jobj fs :: rest) =
            List.find? matchesPart rest := by
          simp [List.find?_cons, matchesPart, hm0]
        rw [hscan, hfind]
        exact ih hrest
    | jstr s =>
      have hscan : partScan (.jstr s :: rest) = .jstr s := by simp [partScan]
      have hfind : List.find? matchesPart (.jstr s :: rest) = some (.jstr s) := by
        simp [List.find?_cons, matchesPart]
      rw [hscan, hfind]
      by_cases hs : s = ""
      · subst hs; simp [Corr, partTextVal, nonEmptyStr, JVal.truthy]
      · simp [Corr, partTextVal, nonEmptyStr, hs, JVal.truthy]
    | jnull =>
      have hscan : partScan (.jnull :: rest) = partScan rest := by simp [partScan]
      have hfind : List.find? matchesPart (.jnull :: rest) =
          List.find? matchesPart rest := by
        simp [List.find?_cons, matchesPart]
      rw [hscan, hfind]
      exact ih hrest
    | jbool b =>
      have hscan : partScan (.jbool b :: rest) = partScan rest := by simp [partScan]
      have hfind : List.find? matchesPart (.jbool b :: rest) =
          List.find? matchesPart rest := by
        simp [List.find?_cons, matchesPart]
      rw [hscan, hfind]
      exact ih hrest
    | jnum n =>
      have hscan : partScan (.jnum n :: rest) = partScan rest := by simp [partScan]
      have hfind : List.find? matchesPart (.jnum n :: rest) =
          List.find? matchesPart rest := by
        simp [List.find?_cons, matchesPart]
      rw [hscan, hfind]
      exact ih hrest
    | jarr xs =>
      have hscan : partScan (.jarr xs :: rest) = partScan rest := by simp [partScan]
      have hfind : List.find? matchesPart (.jarr xs :: rest) =
          List.find? matchesPart rest := by
        simp [List.find?_cons, matchesPart]
      rw [hscan, hfind]
      exact ih hrest

/-- The message phase (Format 1 plus the message's own fields)
corresponds to spec rules 1 and 2, for well-shaped payloads. -/
theorem corr_extractFromMessage (pfs : List (String × JVal))
    (hws : wellShaped pfs = true) :
    ∃ t1, extractFromMessage (objGetD pfs "message" (.jobj [])) = .ok t1 ∧
      Corr t1 (specRule1 pfs <|> specRule2 pfs) := by
  have hmsg : (match objGetD pfs "message" .jnull with
      | .jobj mfs =>
        (match objGetD mfs "parts" (.jarr []) with
         | .jarr parts => parts.all wellShapedPart
         | _ => false) &&
          isStrLike (objGetD mfs "text" .jnull) &&
          isStrLike (objGetD mfs "content" .jnull)
      | v => !v.truthy) = true := by
    simp only [wellShaped, Bool.and_eq_true] at hws
    exact hws.1.1.1.1.1
  cases hfind : List.find? (fun p => p.1 == "message") pfs with
  | none =>
    have hcode : objGetD pfs "message" (.jobj []) = .jobj [] := by
      simp [objGetD, hfind]
    have h1 : specRule1 pfs = none := by
      simp [specRule1, objGetD, hfind]
    have h2 : specRule2 pfs = none := by
      simp [specRule2, objGetD, hfind]
    refine ⟨.jstr "", ?_, ?_⟩
    · rw [hcode]; rfl
    · rw [h1, h2]; simp [Corr, JVal.truthy]
  | some mp =>
    obtain ⟨mk, mv⟩ := mp
    have hspec : objGetD pfs "message" .jnull = mv := by simp [objGetD, hfind]
    have hcode : objGetD pfs "message" (.jobj []) = mv := by simp [objGetD, hfind]
    rw [hspec] at hmsg
    rw [hcode]
    cases mv with
    | jobj mfs =>
      have h2 : specRule2 pfs = (nonEmptyStr (toStr? (objGetD mfs "text" .jnull)) <|>
          nonEmptyStr (toStr? (objGetD mfs "content" .jnull))) := by
        simp only [specRule2, hspec]
      by_cases htru : (JVal.jobj mfs).truthy = true
      · simp only [Bool.and_eq_true] at hmsg
        obtain ⟨⟨hparts, htext⟩, hcontent⟩ := hmsg
        cases hpv : objGetD mfs "parts" (.jarr []) with
        | jarr parts =>
          rw [hpv] at hparts
          have hparts2 : parts.all wellShapedPart = true := by simpa using hparts
          have h1 : specRule1 pfs =
              nonEmptyStr ((parts.find? matchesPart).bind partTextVal) := by
            simp only [specRule1, hspec, hpv]
          rw [h1, h2]
          have hscan := corr_partScan parts hparts2
          have htail := corr_pyOr (corr_getD mfs "text" htext) (corr_getD mfs "content" hcontent)
          refine ⟨if (partScan parts).truthy then partScan parts
              else pyOr (objGetD mfs "text" (.jstr "")) (objGetD mfs "content" (.jstr "")),
            ?_, ?_⟩
          · simp only [extractFromMessage, htru, if_true]
            rw [show pyIter (objGetD mfs "parts" (.jarr [])) = Except.ok parts from by
              rw [hpv]; rfl]
            show (if (partScan parts).truthy then pure (partScan parts)
                else pure (pyOr (objGetD mfs "text" (.jstr ""))
                  (objGetD mfs "content" (.jstr "")))) = _
            by_cases ht : (partScan parts).truthy = true
            · simp [ht, pure, Except.pure]
            · simp [ht, pure, Except.pure]
          · exact corr_step hscan htail
        | jnull => rw [hpv] at hparts; simp at hparts
        | jbool b => rw [hpv] at hparts; simp at hparts
        | jnum n => rw [hpv] at hparts; simp at hparts
        | jstr s => rw [hpv] at hparts; simp at hparts
        | jobj gs => rw [hpv] at hparts; simp at hparts
      · have hfalse : (JVal.jobj mfs).truthy = false := by simpa using htru
        have hmfs : mfs = [] := by
          simp only [JVal.truthy] at hfalse
          simpa using hfalse
        subst hmfs
        have h1 : specRule1 pfs = none := by
          have hp0 : objGetD ([] : List (String × JVal)) "parts" (.jarr []) = .jarr [] := rfl
          simp [specRule1, hspec, hp0, nonEmptyStr, List.find?]
        rw [h1, h2]
        refine ⟨.jstr "", ?_, ?_⟩
        · rfl
        · simp [objGetD, nonEmptyStr, toStr?, List.find?, Corr, JVal.truthy]
    | jnull =>
      have h1 : specRule1 pfs = none := by simp only [specRule1, hspec]
      have h2 : specRule2 pfs = none := by simp only [specRule2, hspec]
      rw [h1, h2]
      exact ⟨.jstr "", rfl, by simp [Corr, JVal.truthy]⟩
    | jbool b =>
      have h1 : specRule1 pfs = none := by simp only [specRule1, hspec]
      have h2 : specRule2 pfs = none := by simp only [specRule2, hspec]
      rw [h1, h2]
      simp only [JVal.truthy, Bool.not_eq_true'] at hmsg
      subst hmsg
      exact ⟨.jstr "", rfl, by simp [Corr, JVal.truthy]⟩
    | jnum n =>
      have h1 : specRule1 pfs = none := by simp only [specRule1, hspec]
      have h2 : specRule2 pfs = none := by simp only [specRule2, hspec]
      rw [h1, h2]
      simp only [JVal.truthy] at hmsg
      have hn : n = 0 := by simpa using hmsg
      subst hn
      exact ⟨.jstr "", rfl, by simp [Corr, JVal.truthy]⟩
    | jstr s =>
      have h1 : specRule1 pfs = none := by simp only [specRule1, hspec]
      have h2 : specRule2 pfs = none := by simp only [specRule2, hspec]
      rw [h1, h2]
      simp only [JVal.truthy] at hmsg
      have hs : s = "" := by simpa using hmsg
      subst hs
      exact ⟨.jstr "", rfl, by simp [Corr, JVal.truthy]⟩
    | jarr xs =>
      have h1 : specRule1 pfs = none := by simp only [specRule1, hspec]
      have h2 : specRule2 pfs = none := by simp only [specRule2, hspec]
      rw [h1, h2]
      simp only [JVal.truthy] at hmsg
      have hx : xs = [] := by simpa using hmsg
      subst hx
      exact ⟨.jstr "", rfl, by simp [Corr, JVal.truthy]⟩

/-- The fall-through tail corresponds to spec rules 3-5 chained behind
whatever the message phase produced. -/
theorem corr_extractTail (pfs : List (String × JVal)) (t1 : JVal) (o1 : Option String)
    (hc : Corr t1 o1) (hws : wellShaped pfs = true) :
    extractTail pfs t1 =
      (match (o1 <|> specTopField pfs "text" <|> specTopField pfs "content" <|>
          specTopField pfs "query" <|> specTopField pfs "prompt" <|>
          specTopField pfs "input" : Option String) with
       | some s => .ok (.jstr s)
       | none => .error .noContent) := by
  simp only [wellShaped, Bool.and_eq_true] at hws
  obtain ⟨⟨⟨⟨⟨_, hT⟩, hC⟩, hQ⟩, hP⟩, hI⟩ := hws
  have cT : Corr (objGetD pfs "text" (.jstr "")) (specTopField pfs "text") :=
    corr_getD pfs "text" hT
  have cC : Corr (objGetD pfs "content" (.jstr "")) (specTopField pfs "content") :=
    corr_getD pfs "content" hC
  have cQ : Corr (objGetD pfs "query" (.jstr "")) (specTopField pfs "query") :=
    corr_getD pfs "query" hQ
  have cP : Corr (objGetD pfs "prompt" (.jstr "")) (specTopField pfs "prompt") :=
    corr_getD pfs "prompt" hP
  have cI : Corr (objGetD pfs "input" (.jstr "")) (specTopField pfs "input") :=
    corr_getD pfs "input" hI
  have c2 : Corr (if t1.truthy then t1 else
      pyOr (objGetD pfs "text" (.jstr ""))
        (pyOr (objGetD pfs "content" (.jstr "")) (objGetD pfs "query" (.jstr ""))))
      (o1 <|> (specTopField pfs "text" <|> (specTopField pfs "content" <|> specTopField pfs "query"))) :=
    corr_step hc (corr_pyOr cT (corr_pyOr cC cQ))
  have c3 := corr_step c2 cP
  have c4 := corr_step c3 cI
  have hassoc : (((o1 <|> (specTopField pfs "text" <|> (specTopField pfs "content" <|> specTopField pfs "query"))) <|>
        specTopField pfs "prompt") <|> specTopField pfs "input" : Option String) =
      (o1 <|> specTopField pfs "text" <|> specTopField pfs "content" <|>
        specTopField pfs "query" <|> specTopField pfs "prompt" <|> specTopField pfs "input" : Option String) := by
    simp only [orElse_assoc]
  rw [hassoc] at c4
  cases hfin : (o1 <|> specTopField pfs "text" <|> specTopField pfs "content" <|>
      specTopField pfs "query" <|> specTopField pfs "prompt" <|> specTopField pfs "input") with
  | some s =>
    rw [hfin] at c4
    obtain ⟨hval, hs⟩ := c4
    simp only [extractTail]
    rw [hval]
    simp [JVal.truthy, hs, pure, Except.pure]
  | none =>
    rw [hfin] at c4
    simp only [extractTail]
    rw [c4]
    simp

/-- The full normalizer refinement: on well-shaped payloads the code's
extraction equals the spec-side resolution order, and an all-falsy
payload yields `noContent`. -/
theorem extractUserText_eq_specNormalize (pfs : List (String × JVal))
    (hws : wellShaped pfs = true) :
    extractUserText pfs =
      (match specNormalize pfs with
       | some s => .ok (.jstr s)
       | none => .error .noContent) := by
  obtain ⟨t1, ht1, hcorr⟩ := corr_extractFromMessage pfs hws
  have hstep : extractUserText pfs = extractTail pfs t1 := by
    unfold extractUserText
    rw [ht1]
    rfl
  rw [hstep, corr_extractTail pfs t1 (specRule1 pfs <|> specRule2 pfs) hcorr hws]
  have hchain : ((specRule1 pfs <|> specRule2 pfs) <|> specTopField pfs "text" <|>
        specTopField pfs "content" <|> specTopField pfs "query" <|>
        specTopField pfs "prompt" <|> specTopField pfs "input" : Option String) =
      specNormalize pfs := by
    simp only [specNormalize, orElse_assoc]
  rw [hchain]

/-! ## Store lemmas -/

theorem Store.set_cons_ne (k' : String) (t' : Task) (rest : Store) (k : String)
    (t : Task) (h : (k' == k) = false) :
    Store.set ((k', t') :: rest) k t = (k', t') :: Store.set rest k t := by
  simp only [Store.set, List.find?_cons, h]
  by_cases hrest : (List.find? (fun p => p.1 == k) rest).isSome
  · simp only [hrest, if_true, List.map_cons, h]
    simp only [Bool.false_eq_true, if_false]
  · simp [hrest, h]

theorem Store.get?_cons_ne (k' : String) (t' : Task) (rest : Store) (k : String)
    (h : (k' == k) = false) :
    Store.get? ((k', t') :: rest) k = Store.get? rest k := by
  simp only [Store.get?, List.find?_cons, h]

theorem Store.get?_set_self (st : Store) (k : String) (t : Task) :
    (st.set k t).get? k = some t := by
  induction st with
  | nil => simp [Store.set, Store.get?, List.find?]
  | cons p rest ih =>
    obtain ⟨k', t'⟩ := p
    by_cases hk : (k' == k) = true
    · have hk' : k' = k := by simpa using hk
      subst hk'
      simp only [Store.set, List.find?_cons, hk]
      simp only [Option.isSome_some, if_true, List.map_cons, hk, if_true]
      simp [Store.get?, List.find?_cons]
    · have hk0 : (k' == k) = false := by simpa using hk
      rw [Store.set_cons_ne _ _ _ _ _ hk0, Store.get?_cons_ne _ _ _ _ hk0]
      exact ih

theorem Store.get?_none_iff (st : Store) (k : String) :
    st.get? k = none ↔ ∀ p ∈ st, ¬(p.1 = k) := by
  simp only [Store.get?]
  constructor
  · intro h p hp hpk
    cases hfind : List.find? (fun p => p.1 == k) st with
    | some q => rw [hfind] at h; simp at h
    | none =>
      have := List.find?_eq_none.mp hfind p hp
      simp [hpk] at this
  · intro h
    cases hfind : List.find? (fun p => p.1 == k) st with
    | some q =>
      have hq := List.find?_some hfind
      have hmem := List.mem_of_find?_eq_some hfind
      exact absurd (by simpa using hq) (h q hmem)
    | none => rfl

theorem Store.set_absent (st : Store) (k : String) (t : Task)
    (h : st.get? k = none) : st.set k t = st ++ [(k, t)] := by
  simp only [Store.set]
  cases hfind : List.find? (fun p => p.1 == k) st with
  | some q => simp [Store.get?, hfind] at h
  | none => simp

theorem Store.keys_set_absent (st : Store) (k : String) (t : Task)
    (h : st.get? k = none) : (st.set k t).keys = st.keys ++ [k] := by
  rw [Store.set_absent st k t h]
  simp [Store.keys]

theorem Store.keys_set_present (st : Store) (k : String) (t : Task)
    (h : (st.get? k).isSome) : (st.set k t).keys = st.keys := by
  simp only [Store.set]
  cases hfind : List.find? (fun p => p.1 == k) st with
  | none => simp [Store.get?, hfind] at h
  | some q =>
    simp only [hfind, Option.isSome_some, if_true, Store.keys, List.map_map]
    apply List.map_congr_left
    intro p _
    by_cases hp : p.1 = k
    · simp [Function.comp, hp]
    · simp [Function.comp, hp]

theorem Store.size_set_present (st : Store) (k : String) (t : Task)
    (h : (st.get? k).isSome) : (st.set k t).size = st.size := by
  have := Store.keys_set_present st k t h
  have hlen := congrArg List.length this
  simpa [Store.keys, Store.size] using hlen

theorem Store.notMem_keys_of_get?_none (st : Store) (k : String)
    (h : st.get? k = none) : k ∉ st.keys := by
  intro hmem
  simp only [Store.keys, List.mem_map] at hmem
  obtain ⟨p, hp, hpk⟩ := hmem
  exact (Store.get?_none_iff st k).mp h p hp hpk

theorem Store.nodup_keys_set (st : Store) (k : String) (t : Task)
    (h : st.keys.Nodup) : (st.set k t).keys.Nodup := by
  cases hget : st.get? k with
  | some t0 =>
    rw [Store.keys_set_present st k t (by simp [hget])]
    exact h
  | none =>
    rw [Store.keys_set_absent st k t hget]
    have hk := Store.notMem_keys_of_get?_none st k hget
    simp [List.nodup_append, h, hk]

theorem Store.set_set_absent (st : Store) (k : String) (t1 t2 : Task)
    (h : st.get? k = none) : (st.set k t1).set k t2 = st.set k t2 := by
  rw [Store.set_absent st k t1 h, Store.set_absent st k t2 h]
  simp only [Store.set]
  have hfind : List.find? (fun p => p.1 == k) st = none := by
    apply List.find?_eq_none.mpr
    intro p hp
    have := (Store.get?_none_iff st k).mp h p hp
    simpa using this
  have hall : ∀ p ∈ st, ¬(p.1 = k) := (Store.get?_none_iff st k).mp h
  have hfind2 : List.find? (fun p => p.1 == k) (st ++ [(k, t1)]) = some (k, t1) := by
    rw [List.find?_append, hfind]
    simp
  simp only [hfind2, Option.isSome_some, if_true, List.map_append]
  congr 1
  · conv_rhs => rw [← List.map_id st]
    apply List.map_congr_left
    intro p hp
    have hne := hall p hp
    simp [hne]
  · simp

/-! ## Submit-path lemmas -/

/-- The task produced by a successful executor run. -/
theorem runSubmitBody_ok (execute : List LCMessage → Except String (List LCMessage))
    (ut : String) (t : Task) (msgs : List LCMessage)
    (hexec : execute (buildConversation (t.history ++ [userMessage ut])) = .ok msgs) :
    runSubmitBody execute ut t =
      { t with
        history := t.history ++ [userMessage ut, agentMessage (extractResponse msgs)]
        status := { state := .completed, message := some (agentMessage (extractResponse msgs)) }
        artifacts := t.artifacts ++ [responseArtifact (extractResponse msgs)] } := by
  simp [runSubmitBody, runExecutor, hexec]

/-- The task produced by a failing executor run: the failure is
captured into the status, history gains only the user message and the
artifacts are untouched. -/
theorem runSubmitBody_err (execute : List LCMessage → Except String (List LCMessage))
    (ut : String) (t : Task) (e : String)
    (hexec : execute (buildConversation (t.history ++ [userMessage ut])) = .error e) :
    runSubmitBody execute ut t =
      { t with
        history := t.history ++ [userMessage ut]
        status := { state := .failed, message := some (agentMessage ("Error: " ++ e)) } } := by
  simp [runSubmitBody, runExecutor, hexec]

/-- Reduction of `handle_task_send` when normalization yields a
(non-empty) string and the id and session id resolve to strings: the
task is resolved (or created) under `tid`, run, and written back. -/
theorem handle_send_eq (execute : List LCMessage → Except String (List LCMessage))
    (pfs : List (String × JVal)) (freshId freshSession tid sid ut : String)
    (store : Store)
    (h1 : extractUserText pfs = .ok (.jstr ut))
    (h2 : taskIdVal pfs freshId = .jstr tid)
    (h3 : sessionIdVal pfs freshSession = .jstr sid) :
    handle_task_send execute (.jobj pfs) freshId freshSession store =
      (store.set tid (runSubmitBody execute ut (resolveTask store tid sid)),
        .ok (runSubmitBody execute ut (resolveTask store tid sid))) := by
  simp only [handle_task_send, h1, h2, h3]
  cases hget : store.get? tid with
  | some t0 =>
    simp [finishSend, resolveTask, hget]
  | none =>
    simp only [finishSend, resolveTask, hget]
    rw [Store.set_set_absent store tid _ _ hget]

/-- The id-addressed handlers receive `{"id": s}` (built by the REST
routes, or passed through RPC params). -/
theorem objGetD_id_singleton (s : String) :
    objGetD [("id", JVal.jstr s)] "id" .jnull = .jstr s := by
  simp [objGetD, List.find?]

theorem handle_get_absent (s : String) (store : Store) (h : store.get? s = none) :
    handle_task_get (.jobj [("id", .jstr s)]) store = .error .taskNotFound := by
  simp only [handle_task_get, objGetD_id_singleton]
  by_cases hs : s = ""
  · simp [hs]
  · simp [hs, h]

theorem handle_cancel_absent (s : String) (store : Store) (h : store.get? s = none) :
    handle_task_cancel (.jobj [("id", .jstr s)]) store = (store, .error .taskNotFound) := by
  simp only [handle_task_cancel, objGetD_id_singleton]
  by_cases hs : s = ""
  · simp [hs]
  · simp [hs, h]

theorem handle_get_found (s : String) (store : Store) (t : Task)
    (hs : s ≠ "") (h : store.get? s = some t) :
    handle_task_get (.jobj [("id", .jstr s)]) store = .ok t := by
  simp only [handle_task_get, objGetD_id_singleton]
  simp [hs, h]

theorem handle_cancel_found (s : String) (store : Store) (t : Task)
    (hs : s ≠ "") (h : store.get? s = some t) :
    handle_task_cancel (.jobj [("id", .jstr s)]) store =
      (store.set s { t with status := { state := .canceled, message := none } },
        .ok { t with status := { state := .canceled, message := none } }) := by
  simp only [handle_task_cancel, objGetD_id_singleton]
  simp [hs, h]

/-- A list extended by two elements ends in the second. -/
theorem getLast?_append_two (l : List Message) (a b : Message) :
    (l ++ [a, b]).getLast? = some b := by
  have h : l ++ [a, b] = (l ++ [a]) ++ [b] := by simp
  rw [h]
  simp

/-- When no `AIMessage` in the executor result has truthy content, the
extracted reply is the empty string. -/
theorem extractResponse_empty (msgs : List LCMessage)
    (h : msgs.all (fun m => !(isAIWithContent m)) = true) :
    extractResponse msgs = "" := by
  unfold extractResponse
  cases hfind : msgs.reverse.find? isAIWithContent with
  | none => rfl
  | some m =>
    have hp := List.find?_some hfind
    have hm : m ∈ msgs.reverse := List.mem_of_find?_eq_some hfind
    rw [List.mem_reverse] at hm
    have hall := List.all_eq_true.mp h m hm
    rw [hp] at hall
    simp at hall

/-! ## Claim theorems -/

/-- C5: `query` on an id absent from the store fails with
`TaskNotFound`; `cancel` on an absent id fails the same way; `cancel`
on a known id sets `status.state` to `CANCELED` unconditionally, with
no check against the current state, overwriting even a terminal
`COMPLETED` or `FAILED` status. -/
theorem C5_query_cancel_semantics (s : String) (store : Store) :
    (store.get? s = none →
      handle_task_get (.jobj [("id", .jstr s)]) store = .error .taskNotFound ∧
      handle_task_cancel (.jobj [("id", .jstr s)]) store = (store, .error .taskNotFound)) ∧
    (∀ t : Task, s ≠ "" → store.get? s = some t →
      handle_task_cancel (.jobj [("id", .jstr s)]) store =
        (store.set s { t with status := { state := .canceled, message := none } },
          .ok { t with status := { state := .canceled, message := none } })) := by
  refine ⟨fun h => ⟨handle_get_absent s store h, handle_cancel_absent s store h⟩,
    fun t hs h => handle_cancel_found s store t hs h⟩

/-- Witness for C5: on a one-task store holding a COMPLETED task `"a"`,
`query`/`cancel` of `"b"` fail with `TaskNotFound` and `cancel` of
`"a"` overwrites the terminal status with CANCELED. -/
theorem C5_witness :
    (handle_task_get (.jobj [("id", .jstr "b")])
        [("a", { id := "a", status := { state := .completed } })] = .error .taskNotFound) ∧
    ((handle_task_cancel (.jobj [("id", .jstr "a")])
        [("a", { id := "a", status := { state := .completed } })]).2.toOption.map
          (fun t => t.status.state) = some .canceled) := by
  have h := C5_query_cancel_semantics "b"
    [("a", { id := "a", status := { state := .completed } })]
  have h2 := C5_query_cancel_semantics "a"
    [("a", { id := "a", status := { state := .completed } })]
  refine ⟨(h.1 (by rfl)).1, ?_⟩
  rw [h2.2 { id := "a", status := { state := .completed } } (by decide) (by rfl)]
  rfl

/-- C7: when `submit` fails with `NoContentFound`, the task store is
left completely unchanged — no task is inserted under any id, and no
existing task is mutated. -/
theorem C7_no_content_store_unchanged
    (execute : List LCMessage → Except String (List LCMessage))
    (pfs : List (String × JVal)) (freshId freshSession : String) (store : Store)
    (h : extractUserText pfs = .error .noContent) :
    handle_task_send execute (.jobj pfs) freshId freshSession store =
      (store, .error .noContent) := by
  simp only [handle_task_send, h]

/-- Witness for C7: the empty payload yields `NoContentFound` and
leaves a one-task store untouched. -/
theorem C7_witness :
    extractUserText [] = .error .noContent ∧
    handle_task_send (fun _ => .ok []) (.jobj []) "f" "s" [("a", { id := "a" })] =
      ([("a", { id := "a" })], .error .noContent) :=
  ⟨rfl, C7_no_content_store_unchanged (fun _ => .ok []) [] "f" "s"
    [("a", { id := "a" })] rfl⟩

/-- C3: when normalization succeeds but the executor call raises,
`submit` itself returns normally (no exception reaches the caller) and
the task's `status.state` is FAILED, the status carrying an agent
message whose text embeds the failure description. -/
theorem C3_executor_failure_captured
    (execute : List LCMessage → Except String (List LCMessage))
    (pfs : List (String × JVal)) (freshId freshSession tid sid ut e : String)
    (store : Store)
    (h1 : extractUserText pfs = .ok (.jstr ut))
    (h2 : taskIdVal pfs freshId = .jstr tid)
    (h3 : sessionIdVal pfs freshSession = .jstr sid)
    (hexec : execute (buildConversation
      ((resolveTask store tid sid).history ++ [userMessage ut])) = .error e) :
    isOkB (handle_task_send execute (.jobj pfs) freshId freshSession store).2 = true ∧
    (handle_task_send execute (.jobj pfs) freshId freshSession store).2 =
      .ok { resolveTask store tid sid with
        history := (resolveTask store tid sid).history ++ [userMessage ut]
        status := { state := .failed, message := some (agentMessage ("Error: " ++ e)) } } := by
  rw [handle_send_eq execute pfs freshId freshSession tid sid ut store h1 h2 h3]
  rw [runSubmitBody_err execute ut (resolveTask store tid sid) e hexec]
  exact ⟨rfl, rfl⟩

/-- Witness for C3: a concrete failing executor ends the run FAILED
with the error text on the status, and `submit` returns normally. -/
theorem C3_witness :
    extractUserText [("text", .jstr "hi")] = .ok (.jstr "hi") ∧
    (handle_task_send (fun _ => .error "boom") (.jobj [("text", .jstr "hi")])
        "t1" "s1" []).2 =
      .ok { id := "t1", sessionId := some "s1"
            history := [userMessage "hi"]
            status := { state := .failed, message := some (agentMessage ("Error: " ++ "boom")) } } := by
  refine ⟨rfl, ?_⟩
  have h := C3_executor_failure_captured (fun _ => .error "boom")
    [("text", .jstr "hi")] "t1" "s1" "t1" "s1" "hi" "boom" [] rfl rfl rfl rfl
  exact h.2

/-- C8 counterexample: with secret `"ab"` and header `"aBearer b"`, the
code authenticates (it removes every `"Bearer "` occurrence anywhere in
the value), while the claim's condition — optional `"Bearer "` prefix
stripped, then compared — rejects it. -/
theorem C8_counterexample :
    verify_api_key "ab" (some "aBearer b") = .ok true ∧
    claimAuthenticated "ab" (some "aBearer b") = false :=
  ⟨rfl, by decide⟩

/-- C8 (amended): with a secret configured, a request is authenticated
iff the Authorization header carries a value which, with every
`"Bearer "` occurrence removed and surrounding whitespace stripped,
equals the secret; a missing header AND a present-but-empty header both
fail with `"Missing Authorization header"`, distinct from the
`"Invalid API key"` a mismatched non-empty value gets; with no secret
configured every request passes. -/
theorem C8_amended_auth (apiKey : String) (authorization : Option String) :
    (isOkB (verify_api_key apiKey authorization) =
      amendedAuthenticated apiKey authorization) ∧
    (apiKey ≠ "" →
      verify_api_key apiKey none = .error "Missing Authorization header" ∧
      verify_api_key apiKey (some "") = .error "Missing Authorization header") ∧
    (∀ a, apiKey ≠ "" → a ≠ "" → pyStrip (pyReplace a "Bearer " "") ≠ apiKey →
      verify_api_key apiKey (some a) = .error "Invalid API key") ∧
    ("Missing Authorization header" ≠ "Invalid API key") := by
  refine ⟨?_, ?_, ?_, by decide⟩
  · by_cases hk : apiKey = ""
    · simp [verify_api_key, hk, amendedAuthenticated, isOkB]
    · cases authorization with
      | none => simp [verify_api_key, hk, amendedAuthenticated, isOkB]
      | some a =>
        by_cases ha : a = ""
        · subst ha
          have h0 : pyStrip (pyReplace "" "Bearer " "") = "" := rfl
          have hk2 : ¬("" = apiKey) := fun h => hk h.symm
          simp [verify_api_key, hk, amendedAuthenticated, isOkB, h0, hk2]
        · by_cases ht : pyStrip (pyReplace a "Bearer " "") = apiKey
          · simp [verify_api_key, hk, ha, ht, amendedAuthenticated, isOkB]
          · simp [verify_api_key, hk, ha, ht, amendedAuthenticated, isOkB]
  · intro hk
    exact ⟨by simp [verify_api_key, hk], by simp [verify_api_key, hk]⟩
  · intro a hk ha ht
    simp [verify_api_key, hk, ha, ht]

/-- C10: if the executor call returns successfully but its result
contains no agent message with non-empty content, `submit` still marks
the task COMPLETED and appends both an agent history message and a
`"response"` artifact whose text is the empty string, rather than
failing or marking the task FAILED. -/
theorem C10_empty_reply_completed
    (execute : List LCMessage → Except String (List LCMessage))
    (pfs : List (String × JVal)) (freshId freshSession tid sid ut : String)
    (store : Store) (msgs : List LCMessage)
    (h1 : extractUserText pfs = .ok (.jstr ut))
    (h2 : taskIdVal pfs freshId = .jstr tid)
    (h3 : sessionIdVal pfs freshSession = .jstr sid)
    (hexec : execute (buildConversation
      ((resolveTask store tid sid).history ++ [userMessage ut])) = .ok msgs)
    (hnone : msgs.all (fun m => !(isAIWithContent m)) = true) :
    (handle_task_send execute (.jobj pfs) freshId freshSession store).2 =
      .ok { resolveTask store tid sid with
        history := (resolveTask store tid sid).history ++ [userMessage ut, agentMessage ""]
        status := { state := .completed, message := some (agentMessage "") }
        artifacts := (resolveTask store tid sid).artifacts ++ [responseArtifact ""] } ∧
    (agentMessage "").parts.map Part.text = [some ""] ∧
    (responseArtifact "").parts.map Part.text = [some ""] := by
  rw [handle_send_eq execute pfs freshId freshSession tid sid ut store h1 h2 h3]
  rw [runSubmitBody_ok execute ut (resolveTask store tid sid) msgs hexec]
  rw [extractResponse_empty msgs hnone]
  exact ⟨rfl, rfl, rfl⟩

/-- Witness for C10: an executor that answers with no AI content at all
still completes the task, with an empty-string reply everywhere. -/
theorem C10_witness :
    (handle_task_send (fun _ => .ok [.other "tool noise"])
        (.jobj [("text", .jstr "hi")]) "t1" "s1" []).2 =
      .ok { id := "t1", sessionId := some "s1"
            history := [userMessage "hi", agentMessage ""]
            status := { state := .completed, message := some (agentMessage "") }
            artifacts := [responseArtifact ""] } := by
  have h := C10_empty_reply_completed (fun _ => .ok [.other "tool noise"])
    [("text", .jstr "hi")] "t1" "s1" "t1" "s1" "hi" [] [.other "tool noise"]
    rfl rfl rfl rfl (by decide)
  exact h.1

/-- C1 counterexample: submitting twice with the same id and a
succeeding executor leaves TWO `"response"` artifacts on the task, so
"exactly one artifact exists on the task" fails for a successful
re-submission. -/
theorem C1_counterexample :
    ((handle_task_send (fun _ => .ok [.ai "42"])
        (.jobj [("id", .jstr "t1"), ("text", .jstr "hi")]) "f2" "s2"
        (handle_task_send (fun _ => .ok [.ai "42"])
          (.jobj [("id", .jstr "t1"), ("text", .jstr "hi")]) "f1" "s1" []).1).2.toOption.map
      (fun t => (t.status.state, t.artifacts.length))) =
      some (TaskState.completed, 2) := by
  rfl

/-- C1 (amended): on a successful run, `submit` returns COMPLETED,
history ends with an agent message whose text equals the appended
artifact's text, and exactly one artifact — `"response"`, `index=0`,
`lastChunk=true`, a single text part — is APPENDED; a first submission
(no pre-existing artifacts) therefore ends with exactly one artifact on
the task. -/
theorem C1_success_artifact_shape
    (execute : List LCMessage → Except String (List LCMessage))
    (pfs : List (String × JVal)) (freshId freshSession tid sid ut : String)
    (store : Store) (msgs : List LCMessage) (final : Task)
    (h1 : extractUserText pfs = .ok (.jstr ut))
    (h2 : taskIdVal pfs freshId = .jstr tid)
    (h3 : sessionIdVal pfs freshSession = .jstr sid)
    (hexec : execute (buildConversation
      ((resolveTask store tid sid).history ++ [userMessage ut])) = .ok msgs)
    (hfinal : final = { resolveTask store tid sid with
      history := (resolveTask store tid sid).history ++
        [userMessage ut, agentMessage (extractResponse msgs)]
      status := { state := .completed, message := some (agentMessage (extractResponse msgs)) }
      artifacts := (resolveTask store tid sid).artifacts ++
        [responseArtifact (extractResponse msgs)] }) :
    handle_task_send execute (.jobj pfs) freshId freshSession store =
      (store.set tid final, .ok final) ∧
    final.status.state = .completed ∧
    final.history.getLast? = some (agentMessage (extractResponse msgs)) ∧
    (agentMessage (extractResponse msgs)).parts =
      [{ type := "text", text := some (extractResponse msgs) }] ∧
    responseArtifact (extractResponse msgs) =
      { name := some "response"
        parts := [{ type := "text", text := some (extractResponse msgs) }]
        index := 0
        append := false
        lastChunk := true } ∧
    final.artifacts = (resolveTask store tid sid).artifacts ++
      [responseArtifact (extractResponse msgs)] ∧
    ((resolveTask store tid sid).artifacts = [] →
      final.artifacts = [responseArtifact (extractResponse msgs)]) := by
  subst hfinal
  rw [handle_send_eq execute pfs freshId freshSession tid sid ut store h1 h2 h3]
  rw [runSubmitBody_ok execute ut (resolveTask store tid sid) msgs hexec]
  refine ⟨rfl, rfl, getLast?_append_two _ _ _, rfl, rfl, rfl, fun h0 => ?_⟩
  simp [h0]

/-- Witness for C1: a fresh single submission with reply `"42"` —
COMPLETED, history ends with the agent message, exactly one artifact. -/
theorem C1_witness :
    ((handle_task_send (fun _ => .ok [.ai "42"]) (.jobj [("text", .jstr "q")])
        "t1" "s1" []).2 =
      .ok { id := "t1", sessionId := some "s1"
            history := [userMessage "q", agentMessage "42"]
            status := { state := .completed, message := some (agentMessage "42") }
            artifacts := [responseArtifact "42"] }) ∧
    ([userMessage "q", agentMessage "42"].getLast? = some (agentMessage "42")) := by
  have h := C1_success_artifact_shape (fun _ => .ok [.ai "42"])
    [("text", .jstr "q")] "t1" "s1" "t1" "s1" "q" [] [.ai "42"]
    { id := "t1", sessionId := some "s1"
      history := [userMessage "q", agentMessage "42"]
      status := { state := .completed, message := some (agentMessage "42") }
      artifacts := [responseArtifact "42"] }
    rfl rfl rfl rfl rfl
  exact ⟨congrArg Prod.snd h.1, h.2.2.1⟩

/-- C4 counterexample: a run that ends FAILED appends NO agent message
to history — history holds only the user message, so "every run that
ends COMPLETED or FAILED appends exactly one agent message" fails. -/
theorem C4_counterexample :
    ((handle_task_send (fun _ => .error "boom") (.jobj [("text", .jstr "hi")])
        "t1" "s1" []).2.toOption.map
      (fun t => (t.status.state, t.history.map Message.role))) =
      some (TaskState.failed, ["user"]) := by
  rfl

/-- C4 (amended): every submission that passes normalization appends
exactly one user message; a COMPLETED run additionally appends exactly
one agent message and one artifact; a FAILED run appends no agent
message (the failure message is carried on the status only) and no
artifact; `cancel` rewrites only the status, so history and artifacts
are append-only — never shrunk or reordered. -/
theorem C4_history_appends
    (execute : List LCMessage → Except String (List LCMessage))
    (pfs : List (String × JVal)) (freshId freshSession tid sid ut : String)
    (store : Store) (final : Task)
    (h1 : extractUserText pfs = .ok (.jstr ut))
    (h2 : taskIdVal pfs freshId = .jstr tid)
    (h3 : sessionIdVal pfs freshSession = .jstr sid)
    (hfinal : final = runSubmitBody execute ut (resolveTask store tid sid)) :
    (handle_task_send execute (.jobj pfs) freshId freshSession store).2 = .ok final ∧
    (∀ e, execute (buildConversation
        ((resolveTask store tid sid).history ++ [userMessage ut])) = .error e →
      final.history = (resolveTask store tid sid).history ++ [userMessage ut] ∧
      final.artifacts = (resolveTask store tid sid).artifacts) ∧
    (∀ msgs, execute (buildConversation
        ((resolveTask store tid sid).history ++ [userMessage ut])) = .ok msgs →
      final.history = (resolveTask store tid sid).history ++
        [userMessage ut, agentMessage (extractResponse msgs)] ∧
      final.artifacts = (resolveTask store tid sid).artifacts ++
        [responseArtifact (extractResponse msgs)]) ∧
    (∀ s t, s ≠ "" → store.get? s = some t →
      (handle_task_cancel (.jobj [("id", .jstr s)]) store).2 =
        .ok { t with status := { state := .canceled, message := none } }) := by
  subst hfinal
  refine ⟨?_, ?_, ?_, ?_⟩
  · exact congrArg Prod.snd
      (handle_send_eq execute pfs freshId freshSession tid sid ut store h1 h2 h3)
  · intro e he
    rw [runSubmitBody_err execute ut (resolveTask store tid sid) e he]
    exact ⟨rfl, rfl⟩
  · intro msgs hm
    rw [runSubmitBody_ok execute ut (resolveTask store tid sid) msgs hm]
    exact ⟨rfl, rfl⟩
  · intro s t hs hget
    exact congrArg Prod.snd (handle_cancel_found s store t hs hget)

/-- Witness for C4: one failing and one succeeding concrete run — the
failed run's history is just the user message, the successful one adds
exactly one agent message and one artifact. -/
theorem C4_witness :
    ((handle_task_send (fun _ => .error "e1") (.jobj [("text", .jstr "a")])
        "t1" "s1" []).2 = .ok (runSubmitBody (fun _ => .error "e1") "a"
          (resolveTask [] "t1" "s1"))) ∧
    ((runSubmitBody (fun _ => .error "e1") "a" (resolveTask [] "t1" "s1")).history =
      (resolveTask [] "t1" "s1").history ++ [userMessage "a"]) ∧
    ((runSubmitBody (fun _ => .ok [.ai "r"]) "a" (resolveTask [] "t1" "s1")).history =
      (resolveTask [] "t1" "s1").history ++ [userMessage "a", agentMessage "r"]) := by
  have hf := C4_history_appends (fun _ => .error "e1") [("text", .jstr "a")]
    "t1" "s1" "t1" "s1" "a" [] _ rfl rfl rfl rfl
  have hs := C4_history_appends (fun _ => .ok [.ai "r"]) [("text", .jstr "a")]
    "t1" "s1" "t1" "s1" "a" [] _ rfl rfl rfl rfl
  exact ⟨hf.1, (hf.2.1 "e1" rfl).1, (hs.2.2.1 [.ai "r"] rfl).1⟩

/-- C6: submitting with no id stores the task under the freshly
generated identifier (previously unseen, by the uuid4 collision-freedom
assumption expressed as a hypothesis); submitting with a known id
mutates the one existing task — store size unchanged, history strictly
longer; the store's keys stay duplicate-free, so it never holds two
tasks with the same id. -/
theorem C6_store_identity
    (execute : List LCMessage → Except String (List LCMessage))
    (pfs : List (String × JVal)) (freshId freshSession sid ut : String)
    (store : Store)
    (h1 : extractUserText pfs = .ok (.jstr ut))
    (h3 : sessionIdVal pfs freshSession = .jstr sid) :
    ((objGetD pfs "id" .jnull).truthy = false → store.get? freshId = none →
      freshId ∉ store.keys ∧
      (handle_task_send execute (.jobj pfs) freshId freshSession store).1.keys =
        store.keys ++ [freshId]) ∧
    (∀ tid t, taskIdVal pfs freshId = .jstr tid → store.get? tid = some t →
      (handle_task_send execute (.jobj pfs) freshId freshSession store).1.size =
        store.size ∧
      (handle_task_send execute (.jobj pfs) freshId freshSession store).2 =
        .ok (runSubmitBody execute ut t) ∧
      t.history.length < (runSubmitBody execute ut t).history.length) ∧
    (∀ tid, taskIdVal pfs freshId = .jstr tid → store.keys.Nodup →
      (handle_task_send execute (.jobj pfs) freshId freshSession store).1.keys.Nodup) ∧
    (∀ s : String, store.keys.Nodup →
      (handle_task_cancel (.jobj [("id", .jstr s)]) store).1.keys.Nodup) := by
  refine ⟨?_, ?_, ?_, ?_⟩
  · intro hnoid hfresh
    have h2 : taskIdVal pfs freshId = .jstr freshId := by
      simp [taskIdVal, hnoid]
    rw [handle_send_eq execute pfs freshId freshSession freshId sid ut store h1 h2 h3]
    exact ⟨Store.notMem_keys_of_get?_none store freshId hfresh,
      Store.keys_set_absent store freshId _ hfresh⟩
  · intro tid t h2 hget
    have hres : resolveTask store tid sid = t := by simp [resolveTask, hget]
    rw [handle_send_eq execute pfs freshId freshSession tid sid ut store h1 h2 h3, hres]
    refine ⟨Store.size_set_present store tid _ (by simp [hget]), rfl, ?_⟩
    cases hexec : execute (buildConversation (t.history ++ [userMessage ut])) with
    | ok msgs =>
      rw [runSubmitBody_ok execute ut t msgs hexec]
      simp
    | error e =>
      rw [runSubmitBody_err execute ut t e hexec]
      simp
  · intro tid h2 hnodup
    rw [handle_send_eq execute pfs freshId freshSession tid sid ut store h1 h2 h3]
    exact Store.nodup_keys_set store tid _ hnodup
  · intro s hnodup
    by_cases hs : s = ""
    · subst hs
      simp only [handle_task_cancel, objGetD_id_singleton]
      simpa using hnodup
    · cases hget : store.get? s with
      | some t =>
        rw [handle_cancel_found s store t hs hget]
        exact Store.nodup_keys_set store s _ hnodup
      | none =>
        rw [handle_cancel_absent s store hget]
        exact hnodup

/-- Witness for C6: a no-id submission on a one-task store lands under
the fresh id; resubmitting `"a"` keeps the store at one nodup-keyed
entry and grows that task's history. -/
theorem C6_witness :
    ((handle_task_send (fun _ => .ok [.ai "r"]) (.jobj [("text", .jstr "hi")])
        "f" "s" [("a", { id := "a", history := [userMessage "x"] })]).1.keys =
      ["a", "f"]) ∧
    ((handle_task_send (fun _ => .ok [.ai "r"])
        (.jobj [("id", .jstr "a"), ("text", .jstr "hi")]) "f" "s"
        [("a", { id := "a", history := [userMessage "x"] })]).1.size = 1) ∧
    ((1 : Nat) < (runSubmitBody (fun _ => .ok [.ai "r"]) "hi"
        { id := "a", history := [userMessage "x"] }).history.length) ∧
    ((handle_task_send (fun _ => .ok [.ai "r"])
        (.jobj [("id", .jstr "a"), ("text", .jstr "hi")]) "f" "s"
        [("a", { id := "a", history := [userMessage "x"] })]).1.keys.Nodup) := by
  have hnew := C6_store_identity (fun _ => .ok [.ai "r"]) [("text", .jstr "hi")]
    "f" "s" "s" "hi" [("a", { id := "a", history := [userMessage "x"] })] rfl rfl
  have hold := C6_store_identity (fun _ => .ok [.ai "r"])
    [("id", .jstr "a"), ("text", .jstr "hi")]
    "f" "s" "s" "hi" [("a", { id := "a", history := [userMessage "x"] })] rfl rfl
  have hre := hold.2.1 "a" { id := "a", history := [userMessage "x"] } rfl rfl
  refine ⟨?_, hre.1, hre.2.2, hold.2.2.1 "a" rfl (by decide)⟩
  have hfst := (hnew.1 (by decide) rfl).2
  simpa using hfst

/-- C2 counterexample: on the payload `{"message": "x"}` no rule yields
text, yet `submit` raises the dynamic `AttributeError` (from calling
`.get` on the string), not the designated `NoContentFound` error. -/
theorem C2_counterexample :
    handle_task_send (fun _ => .ok []) (.jobj [("message", .jstr "x")]) "f" "s" [] =
      ([], .error .attributeError) ∧
    A2AError.attributeError ≠ A2AError.noContent :=
  ⟨rfl, by decide⟩

/-- C2 (amended): for every WELL-SHAPED payload (message absent/falsy
or an object whose `parts` is a list of parts with string-or-null
texts, and string-or-null consulted fields), the extraction follows
exactly the spec's five-rule priority order with first non-empty match
winning, and yields `NoContentFound` when no rule produces non-empty
text.  Outside that class the guarantee fails: some ill-shaped
payloads — e.g. a string-valued `message`, see the counterexample —
raise a dynamic error instead of `NoContentFound`. -/
theorem C2_normalizer_refines (pfs : List (String × JVal))
    (hws : wellShaped pfs = true) :
    extractUserText pfs =
      (match specNormalize pfs with
       | some s => .ok (.jstr s)
       | none => .error .noContent) :=
  extractUserText_eq_specNormalize pfs hws

/-- Witness for C2: a nested-parts payload extracts `"hello"`, in
agreement with the spec-side normalizer. -/
theorem C2_witness :
    wellShaped [("message", .jobj [("parts", .jarr
      [.jobj [("type", .jstr "text"), ("text", .jstr "hello")]])])] = true ∧
    extractUserText [("message", .jobj [("parts", .jarr
      [.jobj [("type", .jstr "text"), ("text", .jstr "hello")]])])] =
      (match specNormalize [("message", .jobj [("parts", .jarr
        [.jobj [("type", .jstr "text"), ("text", .jstr "hello")]])])] with
       | some s => .ok (.jstr s)
       | none => .error .noContent) ∧
    specNormalize [("message", .jobj [("parts", .jarr
      [.jobj [("type", .jstr "text"), ("text", .jstr "hello")]])])] = some "hello" :=
  ⟨rfl, C2_normalizer_refines [("message", .jobj [("parts", .jarr
    [.jobj [("type", .jstr "text"), ("text", .jstr "hello")]])])] rfl, rfl⟩

/-- C9 counterexample: a reachable history (a run completed with an
empty reply, then resubmitted) where the conversation the code builds
differs from "one role-tagged turn per history message from its first
text part" — the empty-text agent message contributes no turn. -/
theorem C9_counterexample :
    ((handle_task_send (fun _ => .ok []) (.jobj [("text", .jstr "hi")])
        "t1" "s1" []).2.toOption.map
      (fun t => buildConversation (t.history ++ [userMessage "hi2"]))) ≠
    ((handle_task_send (fun _ => .ok []) (.jobj [("text", .jstr "hi")])
        "t1" "s1" []).2.toOption.map
      (fun t => claimProjection (t.history ++ [userMessage "hi2"]))) := by
  decide

/-- C9 (amended): the conversation handed to the executor is exactly
the projection of every history part bearing non-empty text — in
history order, one turn per such part, user role to `HumanMessage` and
all else to `AIMessage`, including the user message just appended, with
no truncation; on histories whose messages each hold a single non-empty
text part (all histories this server itself builds from non-empty
replies) this is one turn per message, as the spec words it. -/
theorem C9_conversation_projection :
    (∀ (e1 e2 : List LCMessage → Except String (List LCMessage)) (ut : String) (t : Task),
      e1 (buildConversation (t.history ++ [userMessage ut])) =
        e2 (buildConversation (t.history ++ [userMessage ut])) →
      runSubmitBody e1 ut t = runSubmitBody e2 ut t) ∧
    (∀ (h : List Message) (ut : String), ut ≠ "" →
      buildConversation (h ++ [userMessage ut]) =
        buildConversation h ++ [.human ut]) ∧
    (∀ msgs : List Message, msgs.all singleTextMessage = true →
      buildConversation msgs = claimProjection msgs) := by
  refine ⟨?_, ?_, ?_⟩
  · intro e1 e2 ut t he
    simp only [runSubmitBody, runExecutor]
    rw [he]
  · intro h ut hut
    simp [buildConversation, userMessage, hut]
  · intro msgs hall
    induction msgs with
    | nil => rfl
    | cons m rest ih =>
      rw [List.all_cons, Bool.and_eq_true] at hall
      obtain ⟨hm, hrest⟩ := hall
      have hstep := ih hrest
      cases hparts : m.parts with
      | nil => simp [singleTextMessage, hparts] at hm
      | cons p ps =>
        cases hps : ps with
        | cons q qs =>
          subst hps
          simp [singleTextMessage, hparts] at hm
        | nil =>
          subst hps
          simp only [singleTextMessage, hparts] at hm
          cases htext : p.text with
          | none => rw [htext] at hm; simp at hm
          | some s =>
            rw [htext] at hm
            have hs : s ≠ "" := by simpa using hm
            simp only [buildConversation, claimProjection, List.flatMap_cons,
              List.map_cons] at hstep ⊢
            rw [hparts]
            by_cases hr : m.role = "user"
            · simp [htext, hs, hr, hstep]
            · simp [htext, hs, hr, hstep]

/-- Witness for C9: the executor only sees the built conversation; the
current user message becomes the final human turn; and on a
single-text-part history the projection is one turn per message. -/
theorem C9_witness :
    (runSubmitBody (fun _ => .ok [.ai "1"]) "hi" { id := "t" } =
      runSubmitBody (fun c => if c.length = 1 then .ok [.ai "1"] else .error "x")
        "hi" { id := "t" }) ∧
    (buildConversation ([] ++ [userMessage "hi"]) =
      buildConversation [] ++ [.human "hi"]) ∧
    (buildConversation [userMessage "a"] = claimProjection [userMessage "a"]) := by
  refine ⟨?_, ?_, ?_⟩
  · exact C9_conversation_projection.1 (fun _ => .ok [.ai "1"])
      (fun c => if c.length = 1 then .ok [.ai "1"] else .error "x") "hi"
      { id := "t" } rfl
  · exact C9_conversation_projection.2.1 [] "hi" (by decide)
  · exact C9_conversation_projection.2.2 [userMessage "a"] (by decide)

/-- Witness for C8: concrete accept, reject, missing-header and
empty-header cases of the amended characterization. -/
theorem C8_witness :
    isOkB (verify_api_key "k" (some "Bearer k")) =
      amendedAuthenticated "k" (some "Bearer k") ∧
    verify_api_key "k" none = .error "Missing Authorization header" ∧
    verify_api_key "k" (some "") = .error "Missing Authorization header" ∧
    verify_api_key "k" (some "x") = .error "Invalid API key" := by
  refine ⟨(C8_amended_auth "k" (some "Bearer k")).1, ?_, ?_, ?_⟩
  · exact ((C8_amended_auth "k" none).2.1 (by decide)).1
  · exact ((C8_amended_auth "k" (some "")).2.1 (by decide)).2
  · exact (C8_amended_auth "k" (some "x")).2.2.1 "x" (by decide) (by decide) (by decide)

end A2A
